import Mathlib

/-!
Verification development for the sunbird-mobile-sdk archive packaging pipeline
(`ArchiveServiceImpl`) and the profile data deletion handler
(`DeleteProfileDataHandler`).

The TypeScript pipelines are shallowly embedded as executable Lean functions.
Each pipeline run is modelled as a pair of an event trace (the external effects
performed and the progress snapshots emitted, in order) and an optional terminal
error.  External collaborators (filesystem, zip service, db service, telemetry
delegates) are modelled by environments supplying the outcome of each effect.
-/

namespace SunbirdArchive

/-- Closed enumeration of archive object types (`ArchiveObjectType`). -/
inductive ArchiveObjectType
  | CONTENT
  | PROFILE
  | TELEMETRY
deriving DecidableEq, Repr

/-- Content encodings admitted by manifest items. -/
inductive ContentEncoding
  | identity
  | gzip
deriving DecidableEq, Repr

/-- Producer metadata (`ProducerData`), opaque to the orchestrator. -/
structure ProducerData where
  id : String
  ver : String
deriving DecidableEq, Repr

/-- One entry of `ArchiveManifest.archive.items`. -/
structure ManifestItem where
  objectType : ArchiveObjectType
  file : String
  contentEncoding : ContentEncoding
  size : Nat
  explodedSize : Nat
deriving DecidableEq, Repr

/-- The `archive` payload of the manifest: `{ count, items }`. -/
structure ArchivePayload where
  count : Nat
  items : List ManifestItem
deriving DecidableEq, Repr

/-- The manifest written by export and parsed by import (`ArchiveManifest`). -/
structure ArchiveManifest where
  id : String
  ver : String
  ts : String
  producer : ProducerData
  archive : ArchivePayload
deriving DecidableEq, Repr

/-- Per-type export progress: terminal snapshot of an export delegate
(`ArchiveObjectExportProgress`, carrying the `completed` item list that the
manifest builder flattens). -/
structure ObjectExportProgress where
  task : String
  completed : List ManifestItem
deriving DecidableEq, Repr

/-- Per-type import progress (`ArchiveObjectImportProgress`).  The
manifest-validation stage stores `{ task, pending }`; the `applied` field is
modelled from the spec: the external import delegate's terminal snapshot
carries `appliedItems` (the delegate implementation is outside this
repository). An absent field is `none`. -/
structure ObjectImportProgress where
  task : String
  pending : Option (List ManifestItem) := none
  applied : Option (List ManifestItem) := none
deriving DecidableEq, Repr

/-- Errors a pipeline run can terminate with.  `invalidRequest` is
`InvalidRequestError`, `invalidArchive` is `InvalidArchiveError`, `jsError` is
a plain JavaScript `Error(...)` thrown in the orchestrator, `fsError`,
`zipError` and `delegateError` are opaque failures of the external
collaborators.  `notSupported` is modelled from the spec: the spec's
NotSupportedError naming the unsupported object type; no such error class
exists anywhere in the code, the constructor is present only so that the
spec's expectation can be stated and compared with what the code produces. -/
inductive PipelineError
  | invalidRequest (msg : String)
  | invalidArchive (msg : String)
  | jsError (msg : String)
  | notSupported (t : ArchiveObjectType)
  | fsError (msg : String)
  | zipError (msg : String)
  | delegateError (msg : String)
deriving DecidableEq, Repr

/-- One element of the `objects` list of an export/import request. -/
structure ArchiveObjectEntry where
  type : ArchiveObjectType
deriving DecidableEq, Repr

/-- The `ArchiveExportRequest`: object list plus the caller's file path hint. -/
structure ArchiveExportRequest where
  objects : List ArchiveObjectEntry
  filePath : String
deriving DecidableEq, Repr

/-- The `ArchiveImportRequest`: object list plus the source container path. -/
structure ArchiveImportRequest where
  objects : List ArchiveObjectEntry
  filePath : String
deriving DecidableEq, Repr

/-- An emitted `ArchiveExportProgress` snapshot; the `progress` map is an
insertion-ordered association list modelling the JavaScript `Map`. -/
structure ArchiveExportProgress where
  task : String
  progress : List (ArchiveObjectType × ObjectExportProgress)
  filePath : Option String := none
deriving DecidableEq, Repr

/-- An emitted `ArchiveImportProgress` snapshot. -/
structure ArchiveImportProgress where
  task : String
  progress : List (ArchiveObjectType × ObjectImportProgress)
  filePath : Option String := none
deriving DecidableEq, Repr

/-- JavaScript `Map.prototype.set` on an insertion-ordered association list:
an existing key is updated in place, a fresh key is appended. -/
def mapSet {κ β : Type} [DecidableEq κ] (m : List (κ × β)) (k : κ) (v : β) :
    List (κ × β) :=
  if m.any (fun p => p.1 = k) then
    m.map (fun p => if p.1 = k then (k, v) else p)
  else
    m ++ [(k, v)]

/-- JavaScript `Map.prototype.get`. -/
def mapGet {κ β : Type} [DecidableEq κ] (m : List (κ × β)) (k : κ) : Option β :=
  (m.find? (fun p => p.1 = k)).map (fun p => p.2)

/-- The keys of an association-list map, in insertion order. -/
def mapKeys {κ β : Type} (m : List (κ × β)) : List κ :=
  m.map (fun p => p.1)

/-- First-occurrence deduplication of a list, matching the key order produced
by repeated `mapSet` insertions. -/
def insertionKeys {κ : Type} [DecidableEq κ] (l : List κ) : List κ :=
  l.foldl (fun ks t => if t ∈ ks then ks else ks ++ [t]) []

/-- `ArchiveServiceImpl.reduceObjectProgressToArchiveObjectExportProgress`:
fold a results list into a `Map` keyed by object type. -/
def reduceObjectProgressToArchiveObjectExportProgress
    (results : List (ArchiveObjectType × ObjectExportProgress)) :
    List (ArchiveObjectType × ObjectExportProgress) :=
  results.foldl (fun acc r => mapSet acc r.1 r.2) []

/-- `ArchiveServiceImpl.reduceObjectProgressToArchiveObjectImportProgress`. -/
def reduceObjectProgressToArchiveObjectImportProgress
    (results : List (ArchiveObjectType × ObjectImportProgress)) :
    List (ArchiveObjectType × ObjectImportProgress) :=
  results.foldl (fun acc r => mapSet acc r.1 r.2) []

/-- Join semantics of `combineLatest` over finite delegate streams: all
results on success, the first failure otherwise. -/
def collectResults {ε α : Type} : List (Except ε α) → Except ε (List α)
  | [] => .ok []
  | .error e :: _ => .error e
  | .ok a :: rest => (collectResults rest).map (fun l => a :: l)

/-- The first requested type whose `switch` case throws
`Error(To be implemented)` while the concurrent work list is being built
(every type other than TELEMETRY). -/
def firstUnsupported (types : List ArchiveObjectType) : Option ArchiveObjectType :=
  types.find? (fun t =>
    match t with
    | .TELEMETRY => false
    | _ => true)

/-- `ArchiveServiceImpl.ARCHIVE_ID`. -/
def ARCHIVE_ID : String := "sunbird.data.archive"

/-- `ArchiveServiceImpl.ARCHIVE_VERSION`. -/
def ARCHIVE_VERSION : String := "1.0"

/-- The manifest value built by `generateManifestFile`: flatten each type's
`completed` items (map iteration order, i.e. insertion order) into one
sequence, stamp the fixed id and version, and record the flattened length as
the count. -/
def generateManifest (progress : List (ArchiveObjectType × ObjectExportProgress))
    (ts : String) (producer : ProducerData) : ArchiveManifest :=
  let flattenedItems :=
    progress.foldl (fun acc p => acc ++ p.2.completed) []
  { id := ARCHIVE_ID
    ver := ARCHIVE_VERSION
    ts := ts
    producer := producer
    archive := { count := flattenedItems.length, items := flattenedItems } }

/-- Events of an export run, in the order they are observed. -/
inductive ExportEvent
  | createDirInvoke (path : String)
  | createDirDone (path : String)
  | delegateExportRun (idx : Nat)
  | buildContext
  | writeManifest (ws : String) (m : ArchiveManifest)
  | zipDir (ws : String) (target : String)
  | emit (p : ArchiveExportProgress)
deriving DecidableEq, Repr

/-- Events of an import run. `createDirInvoke` happens at call time because
`from(this.fileService.createDir(...))` calls `createDir` eagerly while the
`concat` arguments are evaluated; `createDirJoin` marks the point where the
pipeline actually awaits that promise (the third stage of the `concat`). -/
inductive ImportEvent
  | createDirInvoke (path : String)
  | unzipArchive (src : String) (target : String)
  | readManifest (ws : String)
  | createDirJoin (path : String)
  | delegateImportRun (pending : List ManifestItem)
  | emit (p : ArchiveImportProgress)
deriving DecidableEq, Repr

/-- Outcomes of the external effects consumed by an export run. -/
structure ExportEnv where
  createDir : Except PipelineError Unit
  telemetryExport : Nat → Except PipelineError ObjectExportProgress
  buildContext : Except PipelineError ProducerData
  nowTs : String
  zipTs : String
  writeFile : Except PipelineError Unit
  zipResult : Except PipelineError Unit

/-- The snapshots emitted by an export run, in emission order. -/
def emittedExports (tr : List ExportEvent) : List ArchiveExportProgress :=
  tr.filterMap (fun e =>
    match e with
    | .emit p => some p
    | _ => none)

/-- The snapshots emitted by an import run, in emission order. -/
def emittedImports (tr : List ImportEvent) : List ArchiveImportProgress :=
  tr.filterMap (fun e =>
    match e with
    | .emit p => some p
    | _ => none)

/-- Model of `ArchiveServiceImpl.export`.  Empty requests fail up front with
`InvalidRequestError`.  Otherwise the `concat` runs: workspace creation, the
concurrent delegate fan-out (a non-TELEMETRY type throws a plain
`Error(To be implemented)` while the work list is being built, before any
delegate is subscribed), the BUILDING emission, the manifest stage
(`buildContext` then the manifest file write, emitting BUILDING_MANIFEST) and
the zip stage emitting COMPLETE with the timestamp-derived output path. -/
def exportPipeline (req : ArchiveExportRequest) (ws : String) (env : ExportEnv) :
    List ExportEvent × Option PipelineError :=
  if req.objects.length = 0 then
    ([], some (.invalidRequest "No archive objects to export"))
  else
    let t0 := [ExportEvent.createDirInvoke ws]
    match env.createDir with
    | .error e => (t0, some e)
    | .ok _ =>
      let t1 := t0 ++ [ExportEvent.createDirDone ws]
      match firstUnsupported (req.objects.map (fun o => o.type)) with
      | some _ => (t1, some (.jsError "To be implemented"))
      | none =>
        let n := req.objects.length
        let t2 := t1 ++ (List.range n).map ExportEvent.delegateExportRun
        match collectResults ((List.range n).map env.telemetryExport) with
        | .error e => (t2, some e)
        | .ok rs =>
          let results := rs.map (fun r => (ArchiveObjectType.TELEMETRY, r))
          let pm := reduceObjectProgressToArchiveObjectExportProgress results
          let t3 := t2 ++ [ExportEvent.emit { task := "BUILDING", progress := pm }]
          match env.buildContext with
          | .error e => (t3 ++ [ExportEvent.buildContext], some e)
          | .ok producerData =>
            let manifest := generateManifest pm env.nowTs producerData
            let t4 := t3 ++ [ExportEvent.buildContext, ExportEvent.writeManifest ws manifest]
            match env.writeFile with
            | .error e => (t4, some e)
            | .ok _ =>
              let t5 := t4 ++
                [ExportEvent.emit { task := "BUILDING_MANIFEST", progress := pm }]
              let zipPath := "archive-" ++ env.zipTs ++ ".zip"
              let t6 := t5 ++ [ExportEvent.zipDir ws zipPath]
              match env.zipResult with
              | .error e => (t6, some e)
              | .ok _ =>
                (t6 ++ [ExportEvent.emit
                  { task := "COMPLETE", progress := pm, filePath := some zipPath }],
                 none)

/-- Result of reading the manifest file as text: the content either parses as
structured data or it does not. -/
inductive ManifestText
  | parseable (m : ArchiveManifest)
  | unparseable
deriving DecidableEq, Repr

/-- Outcomes of the external effects consumed by an import run. -/
structure ImportEnv where
  unzip : Except PipelineError Unit
  readAsText : Except PipelineError ManifestText
  createDir : Except PipelineError Unit
  telemetryImport : List ManifestItem → Except PipelineError ObjectImportProgress

/-- The `objectTypes.forEach` loop of `ArchiveServiceImpl.readManifestFile`:
for each requested type select the manifest items of that type, throw
`InvalidArchiveError(Nothing to import)` when none match, otherwise set an
INITIALISING entry carrying the pending items into the shared progress map. -/
def validateTypes (m : ArchiveManifest) :
    List (ArchiveObjectType × ObjectImportProgress) → List ArchiveObjectType →
    Except PipelineError (List (ArchiveObjectType × ObjectImportProgress))
  | acc, [] => .ok acc
  | acc, t :: ts =>
    let items := m.archive.items.filter (fun i => i.objectType = t)
    if items.length = 0 then
      .error (.invalidArchive "Nothing to import")
    else
      validateTypes m
        (mapSet acc t { task := "INITIALISING", pending := some items }) ts

/-- Model of `ArchiveServiceImpl.import`.  Empty requests fail up front.
The `concat` stage order is the code's: unzip (EXTRACTING emitted with the
still-empty shared progress map), manifest read and validation (VALIDATING),
only then the workspace `createDir` join, the delegate fan-out (IMPORTING),
and a terminal COMPLETE snapshot.  The COMPLETE snapshot comes from
the eager `of` over a spread copy of lastResult with task COMPLETE, evaluated
when the pipeline is built: it copies the initial progress object, so its
`progress` field
aliases the shared map mutated by `readManifestFile` (the validated pending
entries) and is unaffected by the later reassignment of `lastResult` to the
IMPORTING aggregation. -/
def importPipeline (req : ArchiveImportRequest) (ws : String) (env : ImportEnv) :
    List ImportEvent × Option PipelineError :=
  if req.objects.length = 0 then
    ([], some (.invalidRequest "No archive objects to export"))
  else
    let types := req.objects.map (fun o => o.type)
    let t0 := [ImportEvent.createDirInvoke ws,
               ImportEvent.unzipArchive req.filePath ws]
    match env.unzip with
    | .error e => (t0, some e)
    | .ok _ =>
      let t1 := t0 ++
        [ImportEvent.emit
          { task := "EXTRACTING", progress := [], filePath := some req.filePath },
         ImportEvent.readManifest ws]
      match env.readAsText with
      | .error e => (t1, some e)
      | .ok .unparseable => (t1, some (.invalidArchive "Invalid manfiest.json"))
      | .ok (.parseable manifest) =>
        match validateTypes manifest [] types with
        | .error e => (t1, some e)
        | .ok sharedMap =>
          let t2 := t1 ++
            [ImportEvent.emit
              { task := "VALIDATING", progress := sharedMap,
                filePath := some req.filePath },
             ImportEvent.createDirJoin ws]
          match env.createDir with
          | .error e => (t2, some e)
          | .ok _ =>
            match firstUnsupported types with
            | some _ => (t2, some (.jsError "To be implemented"))
            | none =>
              match mapGet sharedMap .TELEMETRY with
              | none => (t2, some (.jsError "TypeError"))
              | some entry =>
                let pendingItems := entry.pending.getD []
                let t3 := t2 ++
                  List.replicate req.objects.length
                    (ImportEvent.delegateImportRun pendingItems)
                match collectResults
                    (List.replicate req.objects.length
                      (env.telemetryImport pendingItems)) with
                | .error e => (t3, some e)
                | .ok rs =>
                  let results := rs.map (fun r => (ArchiveObjectType.TELEMETRY, r))
                  let t4 := t3 ++
                    [ImportEvent.emit
                      { task := "IMPORTING",
                        progress :=
                          reduceObjectProgressToArchiveObjectImportProgress results }]
                  (t4 ++
                    [ImportEvent.emit
                      { task := "COMPLETE", progress := sharedMap,
                        filePath := some req.filePath }],
                   none)

end SunbirdArchive

namespace SunbirdProfile

/-- Opaque database-layer error. -/
inductive DbError
  | err (msg : String)
deriving DecidableEq, Repr

/-- The ten tables `DeleteProfileDataHandler.delete` issues a `delete` against,
in source order. -/
inductive DeleteTarget
  | profileEntry
  | contentMarkerEntry
  | contentAccessEntry
  | learnerAssessmentsEntry
  | learnerSummaryEntry
  | contentFeedbackEntry
  | searchHistoryEntry
  | groupProfileEntry
  | userEntry
  | playerConfigEntry
deriving DecidableEq, Repr

/-- Source order of the per-table deletions inside the `zip`. -/
def deleteTargets : List DeleteTarget :=
  [.profileEntry, .contentMarkerEntry, .contentAccessEntry,
   .learnerAssessmentsEntry, .learnerSummaryEntry, .contentFeedbackEntry,
   .searchHistoryEntry, .groupProfileEntry, .userEntry, .playerConfigEntry]

/-- Outcomes of the db operations consumed by a deletion run. -/
structure DbEnv where
  beginTransaction : Except DbError Unit
  deleteFrom : DeleteTarget → Except DbError Nat
  executeKv : Except DbError Unit

/-- Events of a deletion run. -/
inductive DbEvent
  | beginTx
  | deleteFrom (t : DeleteTarget) (uid : String)
  | executeKvDelete (uid : String)
  | endTx (commit : Bool)
deriving DecidableEq, Repr

/-- Model of `DeleteProfileDataHandler.delete`: begin a transaction, issue the
ten per-table deletions and the key-value `execute` inside a `zip`, commit and
emit `true` on success; any upstream failure is caught by `catchError`, which
rolls back (`endTransaction(false)`) and emits `false`.  The result component
is the terminal notification of the observable: `.ok b` is an emitted boolean,
`.error` would be an error notification. -/
def delete (uid : String) (env : DbEnv) : List DbEvent × Except DbError Bool :=
  match env.beginTransaction with
  | .error _ => ([DbEvent.beginTx, DbEvent.endTx false], .ok false)
  | .ok _ =>
    let attempts :=
      deleteTargets.map (fun t => DbEvent.deleteFrom t uid) ++
        [DbEvent.executeKvDelete uid]
    match SunbirdArchive.collectResults (deleteTargets.map env.deleteFrom) with
    | .error _ => (DbEvent.beginTx :: attempts ++ [DbEvent.endTx false], .ok false)
    | .ok _ =>
      match env.executeKv with
      | .error _ => (DbEvent.beginTx :: attempts ++ [DbEvent.endTx false], .ok false)
      | .ok _ => (DbEvent.beginTx :: attempts ++ [DbEvent.endTx true], .ok true)

end SunbirdProfile

namespace SunbirdArchive

/-- A sample telemetry manifest item used by concrete runs. -/
def itemT : ManifestItem :=
  { objectType := .TELEMETRY, file := "telemetry.1.gz", contentEncoding := .gzip,
    size := 10, explodedSize := 100 }

/-- A sample content manifest item used by concrete runs. -/
def itemC : ManifestItem :=
  { objectType := .CONTENT, file := "content.1.zip", contentEncoding := .identity,
    size := 5, explodedSize := 5 }

/-- A manifest holding exactly one telemetry item. -/
def manifestT : ArchiveManifest :=
  { id := ARCHIVE_ID, ver := ARCHIVE_VERSION, ts := "2020-01-01T00:00:00.000Z",
    producer := { id := "sunbird.app", ver := "2.6" },
    archive := { count := 1, items := [itemT] } }

/-- A manifest holding exactly one content item (and no telemetry item). -/
def manifestC : ArchiveManifest :=
  { manifestT with archive := { count := 1, items := [itemC] } }

/-- An all-success export environment whose telemetry delegate completes with
the single item `itemT`. -/
def envOkExport : ExportEnv :=
  { createDir := .ok ()
    telemetryExport := fun _ => .ok { task := "OK", completed := [itemT] }
    buildContext := .ok { id := "sunbird.app", ver := "2.6" }
    nowTs := "2020-01-01T00:00:00.000Z"
    zipTs := "2020-01-01T00:00:01.000Z"
    writeFile := .ok ()
    zipResult := .ok () }

/-- An all-success import environment whose container holds `manifestT` and
whose telemetry delegate applies every pending item. -/
def envOkImport : ImportEnv :=
  { unzip := .ok ()
    readAsText := .ok (.parseable manifestT)
    createDir := .ok ()
    telemetryImport := fun pending =>
      .ok { task := "COMPLETE", pending := none, applied := some pending } }

/-- Import environment whose manifest file content does not parse. -/
def envUnparseable : ImportEnv :=
  { envOkImport with readAsText := .ok .unparseable }

/-- Import environment whose container holds `manifestC`. -/
def envManifestC : ImportEnv :=
  { envOkImport with readAsText := .ok (.parseable manifestC) }

/-- A one-object telemetry export request. -/
def reqExportT : ArchiveExportRequest :=
  { objects := [{ type := .TELEMETRY }], filePath := "export-hint" }

/-- A one-object telemetry import request. -/
def reqImportT : ArchiveImportRequest :=
  { objects := [{ type := .TELEMETRY }], filePath := "container.zip" }

/-- A one-object CONTENT export request. -/
def reqExportContent : ArchiveExportRequest :=
  { objects := [{ type := .CONTENT }], filePath := "f" }

/-- A one-object CONTENT import request. -/
def reqImportContent : ArchiveImportRequest :=
  { objects := [{ type := .CONTENT }], filePath := "container.zip" }

/-- Import request for the container produced by `exportPipeline` under
`envOkExport` (the timestamp-derived zip path). -/
def reqRoundTripImport : ArchiveImportRequest :=
  { objects := [{ type := .TELEMETRY }],
    filePath := "archive-2020-01-01T00:00:01.000Z.zip" }

/-- C5: an empty object list fails both pipelines immediately with the
InvalidRequestError and an empty effect trace: no I/O is performed, and in
particular the workspace directory creation is never invoked. -/
theorem c5_empty_request_no_io
    (er : ArchiveExportRequest) (ir : ArchiveImportRequest) (ws ws2 : String)
    (envE : ExportEnv) (envI : ImportEnv)
    (he : er.objects = []) (hi : ir.objects = []) :
    exportPipeline er ws envE =
      ([], some (.invalidRequest "No archive objects to export")) ∧
    importPipeline ir ws2 envI =
      ([], some (.invalidRequest "No archive objects to export")) := by
  constructor
  · simp [exportPipeline, he]
  · simp [importPipeline, hi]

/-- Witness for C5 at concrete empty requests. -/
theorem c5_witness :
    exportPipeline { objects := [], filePath := "f" } "ws" envOkExport =
      ([], some (.invalidRequest "No archive objects to export")) ∧
    importPipeline { objects := [], filePath := "f" } "ws" envOkImport =
      ([], some (.invalidRequest "No archive objects to export")) := by
  exact c5_empty_request_no_io _ _ "ws" "ws" envOkExport envOkImport rfl rfl

/-- C7: when the manifest file content does not parse as structured data,
the run terminates with `InvalidArchiveError(Invalid manfiest.json)` right
after the manifest read: the whole trace is the eager createDir call, the
unzip, the EXTRACTING emission and the manifest read, so no delegate
runs and no IMPORTING or COMPLETE snapshot is ever emitted. -/
theorem c7_unparseable_manifest (req : ArchiveImportRequest) (ws : String)
    (env : ImportEnv) (hne : req.objects ≠ [])
    (hz : env.unzip = .ok ()) (hr : env.readAsText = .ok .unparseable) :
    importPipeline req ws env =
      ([ImportEvent.createDirInvoke ws,
        ImportEvent.unzipArchive req.filePath ws,
        ImportEvent.emit { task := "EXTRACTING", progress := [],
                           filePath := some req.filePath },
        ImportEvent.readManifest ws],
       some (.invalidArchive "Invalid manfiest.json")) := by
  have hlen : ¬ req.objects.length = 0 := by
    simpa [List.length_eq_zero] using hne
  simp [importPipeline, hlen, hz, hr]

/-- Witness for C7 at a concrete unparseable container. -/
theorem c7_witness :
    importPipeline reqImportT "ws" envUnparseable =
      ([ImportEvent.createDirInvoke "ws",
        ImportEvent.unzipArchive "container.zip" "ws",
        ImportEvent.emit { task := "EXTRACTING", progress := [],
                           filePath := some "container.zip" },
        ImportEvent.readManifest "ws"],
       some (.invalidArchive "Invalid manfiest.json")) := by
  exact c7_unparseable_manifest reqImportT "ws" envUnparseable
    (by decide) rfl rfl

/-- The validation loop fails with `Nothing to import` whenever some requested
type has no matching manifest item, regardless of the accumulator. -/
theorem validateTypes_error_of_missing (m : ArchiveManifest)
    (t : ArchiveObjectType)
    (hempty : m.archive.items.filter (fun i => i.objectType = t) = []) :
    ∀ (ts : List ArchiveObjectType)
      (acc : List (ArchiveObjectType × ObjectImportProgress)),
      t ∈ ts →
      validateTypes m acc ts = .error (.invalidArchive "Nothing to import") := by
  intro ts
  induction ts with
  | nil =>
    intro acc h
    simp at h
  | cons t' ts ih =>
    intro acc hmem
    by_cases hcase : (m.archive.items.filter (fun i => i.objectType = t')).length = 0
    · simp [validateTypes, hcase]
    · have hne' : t ≠ t' := by
        intro h
        subst h
        simp [hempty] at hcase
      have hts : t ∈ ts := by
        rcases List.mem_cons.mp hmem with h | h
        · exact absurd h hne'
        · exact h
      simp [validateTypes, hcase, ih _ hts]

/-- C8: an import whose parsed manifest has zero items matching some requested
type fails with `InvalidArchiveError(Nothing to import)` during validation:
the trace stops at the manifest read, so the type is not treated as a silent
no-op and no delegate import or terminal COMPLETE snapshot occurs. -/
theorem c8_nothing_to_import (req : ArchiveImportRequest) (ws : String)
    (env : ImportEnv) (m : ArchiveManifest) (t : ArchiveObjectType)
    (hne : req.objects ≠ []) (hz : env.unzip = .ok ())
    (hr : env.readAsText = .ok (.parseable m))
    (ht : t ∈ req.objects.map (fun o => o.type))
    (hempty : m.archive.items.filter (fun i => i.objectType = t) = []) :
    importPipeline req ws env =
      ([ImportEvent.createDirInvoke ws,
        ImportEvent.unzipArchive req.filePath ws,
        ImportEvent.emit { task := "EXTRACTING", progress := [],
                           filePath := some req.filePath },
        ImportEvent.readManifest ws],
       some (.invalidArchive "Nothing to import")) := by
  have hlen : ¬ req.objects.length = 0 := by
    simpa [List.length_eq_zero] using hne
  have hval := validateTypes_error_of_missing m t hempty
    (req.objects.map (fun o => o.type)) [] ht
  simp [importPipeline, hlen, hz, hr, hval]

/-- Witness for C8: requesting TELEMETRY from a container whose manifest only
holds a CONTENT item. -/
theorem c8_witness :
    importPipeline reqImportT "ws" envManifestC =
      ([ImportEvent.createDirInvoke "ws",
        ImportEvent.unzipArchive "container.zip" "ws",
        ImportEvent.emit { task := "EXTRACTING", progress := [],
                           filePath := some "container.zip" },
        ImportEvent.readManifest "ws"],
       some (.invalidArchive "Nothing to import")) := by
  exact c8_nothing_to_import reqImportT "ws" envManifestC manifestC .TELEMETRY
    (by decide) rfl rfl (by decide) (by decide)

/-- C1, evaluated on the code at the failing input: in a fully successful
one-type import run, the unzip into the workspace and the manifest read from
the workspace both occur strictly before the pipeline joins the workspace
`createDir` stage — workspace creation is only the third stage of the
`concat`, after the two stages that already read the workspace completed. -/
theorem c1_workspace_join_after_reads :
    (importPipeline reqImportT "ws" envOkImport).2 = none ∧
    List.indexOf (ImportEvent.unzipArchive "container.zip" "ws")
        (importPipeline reqImportT "ws" envOkImport).1 <
      List.indexOf (ImportEvent.createDirJoin "ws")
        (importPipeline reqImportT "ws" envOkImport).1 ∧
    List.indexOf (ImportEvent.readManifest "ws")
        (importPipeline reqImportT "ws" envOkImport).1 <
      List.indexOf (ImportEvent.createDirJoin "ws")
        (importPipeline reqImportT "ws" envOkImport).1 := by
  decide

/-- C2, evaluated on the code at the failing input: requesting CONTENT makes
both pipelines terminate with the plain `Error(To be implemented)` thrown
while the concurrent work list is being formed — before any delegate work —
and that error is not the spec's NotSupportedError naming the type. -/
theorem c2_unsupported_type_raw_error :
    exportPipeline reqExportContent "ws" envOkExport =
      ([ExportEvent.createDirInvoke "ws", ExportEvent.createDirDone "ws"],
       some (.jsError "To be implemented")) ∧
    importPipeline reqImportContent "ws" envManifestC =
      ([ImportEvent.createDirInvoke "ws",
        ImportEvent.unzipArchive "container.zip" "ws",
        ImportEvent.emit { task := "EXTRACTING", progress := [],
                           filePath := some "container.zip" },
        ImportEvent.readManifest "ws",
        ImportEvent.emit { task := "VALIDATING",
                           progress := [(.CONTENT,
                             { task := "INITIALISING", pending := some [itemC] })],
                           filePath := some "container.zip" },
        ImportEvent.createDirJoin "ws"],
       some (.jsError "To be implemented")) ∧
    PipelineError.jsError "To be implemented" ≠
      PipelineError.notSupported ArchiveObjectType.CONTENT := by
  decide

/-- C3, evaluated on the code at the failing input: the export of one
telemetry item writes `manifestT`, and importing that container with the same
requested type succeeds — but the terminal COMPLETE snapshot carries the
validation-stage entry (task INITIALISING, pending = the manifest items,
applied absent) instead of the delegate's applied items, while the IMPORTING
snapshot that does carry the applied items is not the terminal one. -/
theorem c3_round_trip_complete_lacks_applied :
    (exportPipeline reqExportT "wsE" envOkExport).2 = none ∧
    ExportEvent.writeManifest "wsE" manifestT ∈
      (exportPipeline reqExportT "wsE" envOkExport).1 ∧
    (importPipeline reqRoundTripImport "wsI" envOkImport).2 = none ∧
    (emittedImports (importPipeline reqRoundTripImport "wsI" envOkImport).1).getLast? =
      some { task := "COMPLETE",
             progress := [(.TELEMETRY,
               { task := "INITIALISING", pending := some [itemT], applied := none })],
             filePath := some "archive-2020-01-01T00:00:01.000Z.zip" } ∧
    { task := "IMPORTING",
      progress := [(.TELEMETRY,
        { task := "COMPLETE", pending := none, applied := some [itemT] })],
      filePath := none } ∈
      emittedImports (importPipeline reqRoundTripImport "wsI" envOkImport).1 := by
  decide

/-- C4 counterexample: in a successful one-type import run the earliest
emitted snapshot is the EXTRACTING one and its perType map is empty, not the
requested singleton type set. -/
theorem c4_counterexample_extracting_empty :
    (importPipeline reqImportT "ws" envOkImport).2 = none ∧
    (emittedImports (importPipeline reqImportT "ws" envOkImport).1).head? =
      some { task := "EXTRACTING", progress := [],
             filePath := some "container.zip" } ∧
    reqImportT.objects.map (fun o => o.type) = [ArchiveObjectType.TELEMETRY] ∧
    mapKeys ([] : List (ArchiveObjectType × ObjectImportProgress)) ≠
      insertionKeys (reqImportT.objects.map (fun o => o.type)) := by
  decide

end SunbirdArchive

namespace SunbirdArchive

/-- Keys after a `mapSet`: unchanged when the key is present, appended when
fresh. -/
theorem mapKeys_mapSet {κ β : Type} [DecidableEq κ] (m : List (κ × β)) (k : κ)
    (v : β) :
    mapKeys (mapSet m k v) =
      if k ∈ mapKeys m then mapKeys m else mapKeys m ++ [k] := by
  by_cases hk : k ∈ mapKeys m
  · have hany : m.any (fun p => p.1 = k) = true := by
      rcases List.mem_map.mp hk with ⟨p, hp, hpk⟩
      exact List.any_eq_true.mpr ⟨p, hp, by simp [hpk]⟩
    rw [if_pos hk]
    simp only [mapSet, hany, if_true, mapKeys, List.map_map]
    refine List.map_congr_left ?_
    intro p _
    by_cases hpk : p.1 = k
    · simp [Function.comp, hpk]
    · simp [Function.comp, hpk]
  · have hany : m.any (fun p => p.1 = k) = false := by
      rw [List.any_eq_false]
      intro p hp
      intro hpk
      exact hk (List.mem_map.mpr ⟨p, hp, by simpa using hpk⟩)
    rw [if_neg hk]
    simp [mapSet, hany, mapKeys]

/-- Keys of a fold of `mapSet` insertions. -/
theorem mapKeys_foldl_mapSet {κ β : Type} [DecidableEq κ] (l : List (κ × β)) :
    ∀ acc, mapKeys (l.foldl (fun a r => mapSet a r.1 r.2) acc) =
      l.foldl (fun ks r => if r.1 ∈ ks then ks else ks ++ [r.1]) (mapKeys acc) := by
  induction l with
  | nil => intro acc; rfl
  | cons x xs ih =>
    intro acc
    simp only [List.foldl_cons, ih, mapKeys_mapSet]

/-- Keys of a reduced results map are the first occurrences of the result
keys, in order. -/
theorem mapKeys_reduce {κ β : Type} [DecidableEq κ] (results : List (κ × β)) :
    mapKeys (results.foldl (fun acc r => mapSet acc r.1 r.2) []) =
      insertionKeys (results.map (fun r => r.1)) := by
  rw [mapKeys_foldl_mapSet, insertionKeys, List.foldl_map]
  rfl

/-- A member of `mapSet m k v` is a member of `m` or the inserted pair. -/
theorem mem_mapSet {κ β : Type} [DecidableEq κ] {m : List (κ × β)} {k : κ}
    {v : β} {p : κ × β} (h : p ∈ mapSet m k v) : p ∈ m ∨ p = (k, v) := by
  unfold mapSet at h
  split at h
  · rcases List.mem_map.mp h with ⟨q, hq, hqe⟩
    by_cases hqk : q.1 = k
    · right
      rw [← hqe]
      simp [hqk]
    · left
      rw [← hqe]
      simpa [hqk] using hq
  · rcases List.mem_append.mp h with h | h
    · exact Or.inl h
    · right
      simpa using h

/-- Keys produced by a successful validation loop. -/
theorem validateTypes_keys (m : ArchiveManifest) :
    ∀ (ts : List ArchiveObjectType)
      (acc r : List (ArchiveObjectType × ObjectImportProgress)),
      validateTypes m acc ts = .ok r →
      mapKeys r =
        ts.foldl (fun ks t => if t ∈ ks then ks else ks ++ [t]) (mapKeys acc) := by
  intro ts
  induction ts with
  | nil =>
    intro acc r h
    simp only [validateTypes, Except.ok.injEq] at h
    subst h
    rfl
  | cons t' ts ih =>
    intro acc r h
    by_cases hc : (m.archive.items.filter (fun i => i.objectType = t')).length = 0
    · simp [validateTypes, hc] at h
    · simp only [validateTypes, hc, if_false] at h
      have hkeys := ih _ _ h
      simpa [mapKeys_mapSet] using hkeys

/-- Every entry of a successful validation loop result comes from the
accumulator or is the INITIALISING entry holding that type's pending manifest
items (with no applied items). -/
theorem validateTypes_entries (m : ArchiveManifest) :
    ∀ (ts : List ArchiveObjectType)
      (acc r : List (ArchiveObjectType × ObjectImportProgress)),
      validateTypes m acc ts = .ok r →
      ∀ p ∈ r, p ∈ acc ∨
        p.2 = { task := "INITIALISING",
                pending := some (m.archive.items.filter (fun i => i.objectType = p.1)),
                applied := none } := by
  intro ts
  induction ts with
  | nil =>
    intro acc r h p hp
    simp only [validateTypes, Except.ok.injEq] at h
    subst h
    exact Or.inl hp
  | cons t' ts ih =>
    intro acc r h p hp
    by_cases hc : (m.archive.items.filter (fun i => i.objectType = t')).length = 0
    · simp [validateTypes, hc] at h
    · simp only [validateTypes, hc, if_false] at h
      rcases ih _ _ h p hp with hmem | hshape
      · rcases mem_mapSet hmem with hmem' | hpair
        · exact Or.inl hmem'
        · right
          rw [hpair]
      · exact Or.inr hshape

/-- A list whose elements are all `c` folds to the singleton key list. -/
theorem insertionKeys_all_eq {κ : Type} [DecidableEq κ] (c : κ) :
    ∀ (l : List κ), (∀ x ∈ l, x = c) → l ≠ [] → insertionKeys l = [c] := by
  have aux : ∀ (l : List κ), (∀ x ∈ l, x = c) →
      l.foldl (fun ks t => if t ∈ ks then ks else ks ++ [t]) [c] = [c] := by
    intro l
    induction l with
    | nil => intro _; rfl
    | cons x xs ih =>
      intro h
      have hx : x = c := h x (by simp)
      subst hx
      simp only [List.foldl_cons]
      rw [if_pos (by simp)]
      exact ih (fun y hy => h y (by simp [hy]))
  intro l h hne
  cases l with
  | nil => exact absurd rfl hne
  | cons x xs =>
    have hx : x = c := h x (by simp)
    subst hx
    simp only [insertionKeys, List.foldl_cons]
    rw [if_neg (by simp)]
    simpa using aux xs (fun y hy => h y (by simp [hy]))

/-- When no requested type is unsupported, every requested type is
TELEMETRY. -/
theorem firstUnsupported_eq_none {types : List ArchiveObjectType}
    (h : firstUnsupported types = none) :
    ∀ t ∈ types, t = ArchiveObjectType.TELEMETRY := by
  intro t ht
  have hfind := List.find?_eq_none.mp h t ht
  cases t <;> simp_all

/-- A successful join yields one result per source. -/
theorem collectResults_ok_length {ε α : Type} :
    ∀ (l : List (Except ε α)) (rs : List α),
      collectResults l = .ok rs → rs.length = l.length := by
  intro l
  induction l with
  | nil =>
    intro rs h
    simp only [collectResults, Except.ok.injEq] at h
    subst h
    rfl
  | cons x xs ih =>
    intro rs h
    cases x with
    | error e => simp [collectResults] at h
    | ok a =>
      simp only [collectResults] at h
      cases hc : collectResults xs with
      | error e =>
        rw [hc] at h
        simp [Except.map] at h
      | ok l' =>
        rw [hc] at h
        simp only [Except.map, Except.ok.injEq] at h
        subst h
        simp [ih _ hc]

/-- Emitted snapshots distribute over trace concatenation. -/
theorem emittedImports_append (a b : List ImportEvent) :
    emittedImports (a ++ b) = emittedImports a ++ emittedImports b := by
  simp [emittedImports]

/-- Delegate-run events emit nothing. -/
theorem emittedImports_delegateRuns (n : Nat) (p : List ManifestItem) :
    emittedImports (List.replicate n (ImportEvent.delegateImportRun p)) = [] := by
  induction n with
  | zero => rfl
  | succ k ih => simp [emittedImports, List.replicate_succ]

/-- Export delegate-run events emit nothing. -/
theorem emittedExports_delegateRuns (l : List Nat) :
    emittedExports (l.map ExportEvent.delegateExportRun) = [] := by
  induction l with
  | nil => rfl
  | cons x xs ih => simp [emittedExports]

end SunbirdArchive

namespace SunbirdArchive

/-- Mapping every element to `none` filters everything out. -/
theorem filterMap_const_none {α β : Type} (l : List α) :
    l.filterMap (fun _ => (none : Option β)) = [] := by
  induction l with
  | nil => rfl
  | cons x xs ih => simp [List.filterMap_cons, ih]

/-- Filtering a replicated non-emitting element yields nothing. -/
theorem filterMap_replicate_none {α β : Type} (n : Nat) (a : α) (f : α → Option β)
    (h : f a = none) : (List.replicate n a).filterMap f = [] := by
  induction n with
  | zero => rfl
  | succ k ih => simp [List.replicate_succ, List.filterMap_cons, h, ih]

/-- Every snapshot an export run emits carries the reduced all-TELEMETRY
delegate results as its perType map, and such emissions only happen for
non-empty requests with no unsupported type. -/
theorem emittedExports_characterization (req : ArchiveExportRequest)
    (ws : String) (env : ExportEnv) :
    ∀ p ∈ emittedExports (exportPipeline req ws env).1,
      ∃ rs : List ObjectExportProgress,
        firstUnsupported (req.objects.map (fun o => o.type)) = none ∧
        rs.length = req.objects.length ∧ ¬ req.objects.length = 0 ∧
        p.progress = reduceObjectProgressToArchiveObjectExportProgress
          (rs.map (fun r => (ArchiveObjectType.TELEMETRY, r))) := by
  intro p hp
  by_cases hlen : req.objects.length = 0
  · simp [exportPipeline, hlen, emittedExports] at hp
  · cases hcd : env.createDir with
    | error e =>
      simp [exportPipeline, hlen, hcd, emittedExports] at hp
    | ok _ =>
      cases hfu : firstUnsupported (req.objects.map fun o => o.type) with
      | some t =>
        simp [exportPipeline, hlen, hcd, hfu, emittedExports] at hp
      | none =>
        cases hc : collectResults
            ((List.range req.objects.length).map env.telemetryExport) with
        | error e =>
          simp [exportPipeline, hlen, hcd, hfu, hc, emittedExports,
                List.filterMap_append, filterMap_const_none] at hp
        | ok rs =>
          have hlenrs : rs.length = req.objects.length := by
            simpa using collectResults_ok_length _ _ hc
          refine ⟨rs, rfl, hlenrs, hlen, ?_⟩
          cases hbc : env.buildContext with
          | error e =>
            simp [exportPipeline, hlen, hcd, hfu, hc, hbc, emittedExports,
                  List.filterMap_append, filterMap_const_none] at hp
            simp [hp]
          | ok pd =>
            cases hwf : env.writeFile with
            | error e =>
              simp [exportPipeline, hlen, hcd, hfu, hc, hbc, hwf, emittedExports,
                    List.filterMap_append, filterMap_const_none] at hp
              simp [hp]
            | ok _ =>
              cases hzr : env.zipResult with
              | error e =>
                simp [exportPipeline, hlen, hcd, hfu, hc, hbc, hwf, hzr,
                      emittedExports, List.filterMap_append,
                      filterMap_const_none] at hp
                rcases hp with hp | hp
                · simp [hp]
                · simp [hp]
              | ok _ =>
                simp [exportPipeline, hlen, hcd, hfu, hc, hbc, hwf, hzr,
                      emittedExports, List.filterMap_append,
                      filterMap_const_none] at hp
                rcases hp with hp | hp | hp
                · simp [hp]
                · simp [hp]
                · simp [hp]

/-- Every snapshot an import run emits is the EXTRACTING snapshot with the
still-empty map, or carries the validated shared map (VALIDATING and
COMPLETE), or is the IMPORTING aggregation of all-TELEMETRY delegate
results. -/
theorem emittedImports_characterization (req : ArchiveImportRequest)
    (ws : String) (env : ImportEnv) :
    ∀ p ∈ emittedImports (importPipeline req ws env).1,
      (p.task = "EXTRACTING" ∧ p.progress = []) ∨
      (∃ m sharedMap,
        env.readAsText = .ok (.parseable m) ∧
        validateTypes m [] (req.objects.map (fun o => o.type)) = .ok sharedMap ∧
        ((p.task = "VALIDATING" ∧ p.progress = sharedMap) ∨
         (p.task = "COMPLETE" ∧ p.progress = sharedMap) ∨
         (∃ rs : List ObjectImportProgress,
            firstUnsupported (req.objects.map (fun o => o.type)) = none ∧
            rs.length = req.objects.length ∧ ¬ req.objects.length = 0 ∧
            p.task = "IMPORTING" ∧
            p.progress = reduceObjectProgressToArchiveObjectImportProgress
              (rs.map (fun r => (ArchiveObjectType.TELEMETRY, r)))))) := by
  intro p hp
  by_cases hlen : req.objects.length = 0
  · simp [importPipeline, hlen, emittedImports] at hp
  · cases hz : env.unzip with
    | error e =>
      simp [importPipeline, hlen, hz, emittedImports] at hp
    | ok _ =>
      cases hr : env.readAsText with
      | error e =>
        simp [importPipeline, hlen, hz, hr, emittedImports] at hp
        exact Or.inl ⟨by simp [hp], by simp [hp]⟩
      | ok mt =>
        cases mt with
        | unparseable =>
          simp [importPipeline, hlen, hz, hr, emittedImports] at hp
          exact Or.inl ⟨by simp [hp], by simp [hp]⟩
        | parseable m =>
          cases hv : validateTypes m [] (req.objects.map fun o => o.type) with
          | error e =>
            simp [importPipeline, hlen, hz, hr, hv, emittedImports] at hp
            exact Or.inl ⟨by simp [hp], by simp [hp]⟩
          | ok sm =>
            cases hcd : env.createDir with
            | error e =>
              simp [importPipeline, hlen, hz, hr, hv, hcd, emittedImports] at hp
              rcases hp with hp | hp
              · exact Or.inl ⟨by simp [hp], by simp [hp]⟩
              · exact Or.inr ⟨m, sm, rfl, hv, Or.inl ⟨by simp [hp], by simp [hp]⟩⟩
            | ok _ =>
              cases hfu : firstUnsupported (req.objects.map fun o => o.type) with
              | some t =>
                simp [importPipeline, hlen, hz, hr, hv, hcd, hfu,
                      emittedImports] at hp
                rcases hp with hp | hp
                · exact Or.inl ⟨by simp [hp], by simp [hp]⟩
                · exact Or.inr ⟨m, sm, rfl, hv, Or.inl ⟨by simp [hp], by simp [hp]⟩⟩
              | none =>
                cases hg : mapGet sm .TELEMETRY with
                | none =>
                  simp [importPipeline, hlen, hz, hr, hv, hcd, hfu, hg,
                        emittedImports] at hp
                  rcases hp with hp | hp
                  · exact Or.inl ⟨by simp [hp], by simp [hp]⟩
                  · exact Or.inr ⟨m, sm, rfl, hv, Or.inl ⟨by simp [hp], by simp [hp]⟩⟩
                | some entry =>
                  cases hc : collectResults (List.replicate req.objects.length
                      (env.telemetryImport (entry.pending.getD []))) with
                  | error e =>
                    simp [importPipeline, hlen, hz, hr, hv, hcd, hfu, hg, hc,
                          emittedImports, List.filterMap_append,
                          filterMap_replicate_none] at hp
                    rcases hp with hp | hp
                    · exact Or.inl ⟨by simp [hp], by simp [hp]⟩
                    · exact Or.inr ⟨m, sm, rfl, hv, Or.inl ⟨by simp [hp], by simp [hp]⟩⟩
                  | ok rs =>
                    have hlenrs : rs.length = req.objects.length := by
                      simpa using collectResults_ok_length _ _ hc
                    simp [importPipeline, hlen, hz, hr, hv, hcd, hfu, hg, hc,
                          emittedImports, List.filterMap_append,
                          filterMap_replicate_none] at hp
                    rcases hp with hp | hp | hp | hp
                    · exact Or.inl ⟨by simp [hp], by simp [hp]⟩
                    · exact Or.inr ⟨m, sm, rfl, hv, Or.inl ⟨by simp [hp], by simp [hp]⟩⟩
                    · exact Or.inr ⟨m, sm, rfl, hv, Or.inr (Or.inr
                        ⟨rs, rfl, hlenrs, hlen, by simp [hp], by simp [hp]⟩)⟩
                    · exact Or.inr ⟨m, sm, rfl, hv, Or.inr (Or.inl
                        ⟨by simp [hp], by simp [hp]⟩)⟩

end SunbirdArchive

namespace SunbirdArchive

/-- Keys of the named export reducer. -/
theorem mapKeys_reduceExport
    (results : List (ArchiveObjectType × ObjectExportProgress)) :
    mapKeys (reduceObjectProgressToArchiveObjectExportProgress results) =
      insertionKeys (results.map (fun r => r.1)) :=
  mapKeys_reduce results

/-- Keys of the named import reducer. -/
theorem mapKeys_reduceImport
    (results : List (ArchiveObjectType × ObjectImportProgress)) :
    mapKeys (reduceObjectProgressToArchiveObjectImportProgress results) =
      insertionKeys (results.map (fun r => r.1)) :=
  mapKeys_reduce results

/-- Keys of an all-TELEMETRY results list collapse to the singleton. -/
theorem insertionKeys_telemetry_pairs {β : Type} (rs : List β) (hne : rs ≠ []) :
    insertionKeys ((rs.map (fun r => (ArchiveObjectType.TELEMETRY, r))).map
        (fun q => q.1)) = [ArchiveObjectType.TELEMETRY] := by
  apply insertionKeys_all_eq
  · intro x hx
    rcases List.mem_map.mp hx with ⟨q, hq, hqx⟩
    rcases List.mem_map.mp hq with ⟨r, _, hrq⟩
    rw [← hqx, ← hrq]
  · simp [hne]

/-- A request that passes the unsupported-type check has the singleton
TELEMETRY key set. -/
theorem keys_requested_of_noUnsupported {types : List ArchiveObjectType}
    (hfu : firstUnsupported types = none) (hne : types ≠ []) :
    insertionKeys types = [ArchiveObjectType.TELEMETRY] :=
  insertionKeys_all_eq _ types (firstUnsupported_eq_none hfu) hne

/-- C4 amended: every snapshot the export pipeline emits carries a perType map
whose keys are exactly the requested types (first occurrence, each once); for
the import pipeline the same holds for every snapshot except the EXTRACTING
one, whose perType map is empty. -/
theorem c4_amended_perType_keys
    (er : ArchiveExportRequest) (ir : ArchiveImportRequest) (ws ws2 : String)
    (envE : ExportEnv) (envI : ImportEnv) :
    (∀ p ∈ emittedExports (exportPipeline er ws envE).1,
       mapKeys p.progress = insertionKeys (er.objects.map (fun o => o.type))) ∧
    (∀ p ∈ emittedImports (importPipeline ir ws2 envI).1,
       p.task ≠ "EXTRACTING" →
       mapKeys p.progress = insertionKeys (ir.objects.map (fun o => o.type))) := by
  constructor
  · intro p hp
    obtain ⟨rs, hfu, hlenrs, hlen, hprog⟩ :=
      emittedExports_characterization er ws envE p hp
    have hne1 : rs ≠ [] := by
      intro hnil
      apply hlen
      rw [← hlenrs, hnil]
      rfl
    have hne2 : er.objects.map (fun o => o.type) ≠ [] := by
      intro hnil
      exact hlen (by simpa using congrArg List.length hnil)
    rw [hprog, mapKeys_reduceExport, insertionKeys_telemetry_pairs rs hne1,
        keys_requested_of_noUnsupported hfu hne2]
  · intro p hp htask
    rcases emittedImports_characterization ir ws2 envI p hp with
      ⟨h1, _⟩ | ⟨m, sm, _, hv, hcase⟩
    · exact absurd h1 htask
    · have hkeys : mapKeys sm = insertionKeys (ir.objects.map (fun o => o.type)) :=
        validateTypes_keys m _ [] sm hv
      rcases hcase with ⟨_, hprog⟩ | ⟨_, hprog⟩ |
        ⟨rs, hfu, hlenrs, hlen, _, hprog⟩
      · rw [hprog]
        exact hkeys
      · rw [hprog]
        exact hkeys
      · have hne1 : rs ≠ [] := by
          intro hnil
          apply hlen
          rw [← hlenrs, hnil]
          rfl
        have hne2 : ir.objects.map (fun o => o.type) ≠ [] := by
          intro hnil
          exact hlen (by simpa using congrArg List.length hnil)
        rw [hprog, mapKeys_reduceImport, insertionKeys_telemetry_pairs rs hne1,
            keys_requested_of_noUnsupported hfu hne2]

/-- Witness for the amended C4 at the VALIDATING snapshot of one concrete
run of the import pipeline. -/
theorem c4_amended_witness :
    mapKeys [(ArchiveObjectType.TELEMETRY,
      ({ task := "INITIALISING", pending := some [itemT] } : ObjectImportProgress))] =
      insertionKeys (reqImportT.objects.map (fun o => o.type)) := by
  exact (c4_amended_perType_keys reqExportT reqImportT "wsE" "ws"
      envOkExport envOkImport).2
    { task := "VALIDATING",
      progress := [(.TELEMETRY, { task := "INITIALISING", pending := some [itemT] })],
      filePath := some "container.zip" }
    (by decide) (by decide)

/-- Flattening fold of the manifest builder expressed as a join. -/
theorem foldl_append_eq_join (l : List (ArchiveObjectType × ObjectExportProgress)) :
    ∀ init, l.foldl (fun acc p => acc ++ p.2.completed) init =
      init ++ (l.map (fun p => p.2.completed)).flatten := by
  induction l with
  | nil =>
    intro init
    simp
  | cons x xs ih =>
    intro init
    simp [ih, List.append_assoc]

/-- C6: every manifest an export run writes carries the fixed format id and
version, its count equals its item count, and its items are the per-type
`completed` sequences of the BUILDING aggregation flattened in map order
(type grouping and in-type order preserved). -/
theorem c6_manifest_flatten (req : ArchiveExportRequest) (ws : String)
    (env : ExportEnv) (m : ArchiveManifest)
    (h : ExportEvent.writeManifest ws m ∈ (exportPipeline req ws env).1) :
    m.id = ARCHIVE_ID ∧ m.ver = ARCHIVE_VERSION ∧
    m.archive.count = m.archive.items.length ∧
    ∃ pm, ExportEvent.emit { task := "BUILDING", progress := pm } ∈
        (exportPipeline req ws env).1 ∧
      m.archive.items = (pm.map (fun p => p.2.completed)).flatten := by
  by_cases hlen : req.objects.length = 0
  · simp [exportPipeline, hlen] at h
  · cases hcd : env.createDir with
    | error e => simp [exportPipeline, hlen, hcd] at h
    | ok _ =>
      cases hfu : firstUnsupported (req.objects.map fun o => o.type) with
      | some t => simp [exportPipeline, hlen, hcd, hfu] at h
      | none =>
        cases hc : collectResults
            ((List.range req.objects.length).map env.telemetryExport) with
        | error e => simp [exportPipeline, hlen, hcd, hfu, hc] at h
        | ok rs =>
          cases hbc : env.buildContext with
          | error e => simp [exportPipeline, hlen, hcd, hfu, hc, hbc] at h
          | ok pd =>
            have hm : m = generateManifest
                (reduceObjectProgressToArchiveObjectExportProgress
                  (rs.map (fun r => (ArchiveObjectType.TELEMETRY, r))))
                env.nowTs pd := by
              cases hwf : env.writeFile with
              | error e =>
                simpa [exportPipeline, hlen, hcd, hfu, hc, hbc, hwf] using h
              | ok _ =>
                cases hzr : env.zipResult with
                | error e =>
                  simpa [exportPipeline, hlen, hcd, hfu, hc, hbc, hwf, hzr] using h
                | ok _ =>
                  simpa [exportPipeline, hlen, hcd, hfu, hc, hbc, hwf, hzr] using h
            subst hm
            refine ⟨rfl, rfl, rfl,
              reduceObjectProgressToArchiveObjectExportProgress
                (rs.map (fun r => (ArchiveObjectType.TELEMETRY, r))), ?_, ?_⟩
            · cases hwf : env.writeFile with
              | error e => simp [exportPipeline, hlen, hcd, hfu, hc, hbc, hwf]
              | ok _ =>
                cases hzr : env.zipResult with
                | error e =>
                  simp [exportPipeline, hlen, hcd, hfu, hc, hbc, hwf, hzr]
                | ok _ =>
                  simp [exportPipeline, hlen, hcd, hfu, hc, hbc, hwf, hzr]
            · simpa [generateManifest] using
                foldl_append_eq_join
                  (reduceObjectProgressToArchiveObjectExportProgress
                    (rs.map (fun r => (ArchiveObjectType.TELEMETRY, r)))) []

/-- Witness for C6 at a concrete successful export. -/
theorem c6_witness :
    manifestT.id = ARCHIVE_ID ∧ manifestT.ver = ARCHIVE_VERSION ∧
    manifestT.archive.count = manifestT.archive.items.length ∧
    ∃ pm, ExportEvent.emit { task := "BUILDING", progress := pm } ∈
        (exportPipeline reqExportT "wsE" envOkExport).1 ∧
      manifestT.archive.items = (pm.map (fun p => p.2.completed)).flatten := by
  exact c6_manifest_flatten reqExportT "wsE" envOkExport manifestT (by decide)

/-- Shape of a completing import run: it read a parseable manifest, validated
it into the shared map, and its last emitted snapshot is the COMPLETE one
carrying that shared map. -/
theorem importPipeline_complete_shape (req : ArchiveImportRequest) (ws : String)
    (env : ImportEnv) (h : (importPipeline req ws env).2 = none) :
    ∃ m sharedMap,
      env.readAsText = .ok (.parseable m) ∧
      validateTypes m [] (req.objects.map (fun o => o.type)) = .ok sharedMap ∧
      (emittedImports (importPipeline req ws env).1).getLast? =
        some { task := "COMPLETE", progress := sharedMap,
               filePath := some req.filePath } := by
  by_cases hlen : req.objects.length = 0
  · simp [importPipeline, hlen] at h
  · cases hz : env.unzip with
    | error e => simp [importPipeline, hlen, hz] at h
    | ok _ =>
      cases hr : env.readAsText with
      | error e => simp [importPipeline, hlen, hz, hr] at h
      | ok mt =>
        cases mt with
        | unparseable => simp [importPipeline, hlen, hz, hr] at h
        | parseable m =>
          cases hv : validateTypes m [] (req.objects.map fun o => o.type) with
          | error e => simp [importPipeline, hlen, hz, hr, hv] at h
          | ok sm =>
            cases hcd : env.createDir with
            | error e => simp [importPipeline, hlen, hz, hr, hv, hcd] at h
            | ok _ =>
              cases hfu : firstUnsupported (req.objects.map fun o => o.type) with
              | some t => simp [importPipeline, hlen, hz, hr, hv, hcd, hfu] at h
              | none =>
                cases hg : mapGet sm .TELEMETRY with
                | none => simp [importPipeline, hlen, hz, hr, hv, hcd, hfu, hg] at h
                | some entry =>
                  cases hc : collectResults (List.replicate req.objects.length
                      (env.telemetryImport (entry.pending.getD []))) with
                  | error e =>
                    simp [importPipeline, hlen, hz, hr, hv, hcd, hfu, hg, hc] at h
                  | ok rs =>
                    refine ⟨m, sm, rfl, hv, ?_⟩
                    simp [importPipeline, hlen, hz, hr, hv, hcd, hfu, hg, hc,
                          emittedImports, List.filterMap_append,
                          filterMap_replicate_none]

/-- C9: the terminal COMPLETE snapshot of every completing import run is built
from the progress object captured at call time: its perType map is exactly the
shared map mutated in place by the manifest-validation stage — every entry is
the INITIALISING record holding that type's pending manifest items with no
applied items — so the IMPORTING aggregation produced by the delegates never
appears in it. -/
theorem c9_complete_snapshot_from_validation (req : ArchiveImportRequest)
    (ws : String) (env : ImportEnv)
    (h : (importPipeline req ws env).2 = none) :
    ∃ m sharedMap,
      env.readAsText = .ok (.parseable m) ∧
      validateTypes m [] (req.objects.map (fun o => o.type)) = .ok sharedMap ∧
      (emittedImports (importPipeline req ws env).1).getLast? =
        some { task := "COMPLETE", progress := sharedMap,
               filePath := some req.filePath } ∧
      ∀ p ∈ sharedMap,
        p.2 = { task := "INITIALISING",
                pending := some (m.archive.items.filter
                  (fun i => i.objectType = p.1)),
                applied := none } := by
  obtain ⟨m, sm, hr, hv, hlast⟩ := importPipeline_complete_shape req ws env h
  refine ⟨m, sm, hr, hv, hlast, ?_⟩
  intro p hp
  rcases validateTypes_entries m _ [] sm hv p hp with hmem | hshape
  · exact absurd hmem (List.not_mem_nil p)
  · exact hshape

/-- Witness for C9 at a concrete completing import run. -/
theorem c9_witness :
    ∃ m sharedMap,
      envOkImport.readAsText = .ok (.parseable m) ∧
      validateTypes m [] (reqImportT.objects.map (fun o => o.type)) =
        .ok sharedMap ∧
      (emittedImports (importPipeline reqImportT "ws" envOkImport).1).getLast? =
        some { task := "COMPLETE", progress := sharedMap,
               filePath := some reqImportT.filePath } ∧
      ∀ p ∈ sharedMap,
        p.2 = { task := "INITIALISING",
                pending := some (m.archive.items.filter
                  (fun i => i.objectType = p.1)),
                applied := none } := by
  exact c9_complete_snapshot_from_validation reqImportT "ws" envOkImport (by decide)

end SunbirdArchive

namespace SunbirdArchive

/-- A join succeeds exactly when every source succeeds. -/
theorem collectResults_ok_iff {ε α : Type} (l : List (Except ε α)) :
    (∃ rs, collectResults l = .ok rs) ↔ ∀ x ∈ l, ∃ a, x = .ok a := by
  induction l with
  | nil => simp [collectResults]
  | cons x xs ih =>
    cases x with
    | error e => simp [collectResults]
    | ok a =>
      constructor
      · rintro ⟨rs, hrs⟩ y hy
        simp only [collectResults] at hrs
        cases hc : collectResults xs with
        | error e =>
          rw [hc] at hrs
          simp [Except.map] at hrs
        | ok l' =>
          rcases List.mem_cons.mp hy with rfl | hy'
          · exact ⟨a, rfl⟩
          · exact (ih.mp ⟨l', hc⟩) y hy'
      · intro hall
        rcases ih.mpr (fun y hy => hall y (by simp [hy])) with ⟨l', hl'⟩
        exact ⟨a :: l', by simp [collectResults, hl', Except.map]⟩

end SunbirdArchive

namespace SunbirdProfile

/-- An all-success database environment. -/
def envDbOk : DbEnv :=
  { beginTransaction := .ok ()
    deleteFrom := fun _ => .ok 1
    executeKv := .ok () }

/-- C10: `DeleteProfileDataHandler.delete` never terminates with an error
notification: every run emits a boolean.  It emits `true` exactly when the
transaction begin, all ten per-table deletions and the key-value delete
succeed, in which case the trace is begin, the eleven deletion attempts, and
a committing `endTransaction(true)`; on any failure it instead rolls back
with `endTransaction(false)` and emits `false`. -/
theorem c10_delete_never_errors (uid : String) (env : DbEnv) :
    ((delete uid env).2 = .ok true ∨ (delete uid env).2 = .ok false) ∧
    ((delete uid env).2 = .ok true →
      (delete uid env).1 =
        DbEvent.beginTx ::
          (deleteTargets.map (fun t => DbEvent.deleteFrom t uid) ++
            [DbEvent.executeKvDelete uid]) ++ [DbEvent.endTx true]) ∧
    ((delete uid env).2 = .ok false →
      DbEvent.endTx false ∈ (delete uid env).1) ∧
    ((delete uid env).2 = .ok true ↔
      env.beginTransaction = .ok () ∧
      (∀ t ∈ deleteTargets, ∃ n, env.deleteFrom t = .ok n) ∧
      env.executeKv = .ok ()) := by
  cases hb : env.beginTransaction with
  | error e =>
    refine ⟨Or.inr (by simp [delete, hb]), ?_, ?_, ?_⟩
    · intro htrue
      simp [delete, hb] at htrue
    · intro _
      simp [delete, hb]
    · constructor
      · intro htrue
        simp [delete, hb] at htrue
      · rintro ⟨hbeg, -, -⟩
        simp at hbeg
  | ok _ =>
    cases hcm : SunbirdArchive.collectResults (deleteTargets.map env.deleteFrom) with
    | error e =>
      have hnall : ¬ ∀ t ∈ deleteTargets, ∃ n, env.deleteFrom t = .ok n := by
        intro hall
        have hall' : ∀ x ∈ deleteTargets.map env.deleteFrom, ∃ a, x = .ok a := by
          intro x hx
          rcases List.mem_map.mp hx with ⟨t, ht, hxe⟩
          rw [← hxe]
          exact hall t ht
        rcases (SunbirdArchive.collectResults_ok_iff _).mpr hall' with ⟨rs, hrs⟩
        rw [hcm] at hrs
        simp at hrs
      refine ⟨Or.inr (by simp [delete, hb, hcm]), ?_, ?_, ?_⟩
      · intro htrue
        simp [delete, hb, hcm] at htrue
      · intro _
        simp [delete, hb, hcm]
      · constructor
        · intro htrue
          simp [delete, hb, hcm] at htrue
        · rintro ⟨-, hall, -⟩
          exact absurd hall hnall
    | ok rs =>
      have hall : ∀ t ∈ deleteTargets, ∃ n, env.deleteFrom t = .ok n := by
        intro t ht
        have := (SunbirdArchive.collectResults_ok_iff (deleteTargets.map env.deleteFrom)).mp
          ⟨rs, hcm⟩ (env.deleteFrom t) (List.mem_map.mpr ⟨t, ht, rfl⟩)
        exact this
      cases hx : env.executeKv with
      | error e =>
        refine ⟨Or.inr (by simp [delete, hb, hcm, hx]), ?_, ?_, ?_⟩
        · intro htrue
          simp [delete, hb, hcm, hx] at htrue
        · intro _
          simp [delete, hb, hcm, hx]
        · constructor
          · intro htrue
            simp [delete, hb, hcm, hx] at htrue
          · rintro ⟨-, -, hexec⟩
            simp at hexec
      | ok _ =>
        refine ⟨Or.inl (by simp [delete, hb, hcm, hx]), ?_, ?_, ?_⟩
        · intro _
          simp [delete, hb, hcm, hx]
        · intro hfalse
          simp [delete, hb, hcm, hx] at hfalse
        · constructor
          · intro _
            exact ⟨rfl, hall, rfl⟩
          · intro _
            simp [delete, hb, hcm, hx]

/-- Witness for C10 at a concrete uid and an all-success database. -/
theorem c10_witness :
    (delete "uid-1" envDbOk).2 = .ok true ∧
    (delete "uid-1" envDbOk).1 =
      DbEvent.beginTx ::
        (deleteTargets.map (fun t => DbEvent.deleteFrom t "uid-1") ++
          [DbEvent.executeKvDelete "uid-1"]) ++ [DbEvent.endTx true] := by
  have hmain := c10_delete_never_errors "uid-1" envDbOk
  have htrue : (delete "uid-1" envDbOk).2 = .ok true :=
    hmain.2.2.2.mpr ⟨rfl, fun t _ => ⟨1, rfl⟩, rfl⟩
  exact ⟨htrue, hmain.2.1 htrue⟩

end SunbirdProfile
